import Mathlib

/-!
Shallow embedding of the offline-first sync and day-finalization engine of
the Nijhum-Deep repository, covering:

* `offlineStorageService.ts` — the IndexedDB-backed Persistent Local Store
  (pending-operation queue, metadata, cached records).
* `syncManager.ts` — the Sync Coordinator (drain loop, retry bookkeeping,
  event emission, mutual exclusion via the `isSyncing` flag).
* `timeService.ts` — day-transition detection and callback delivery.
* `dayFinalizationService.ts` — the Day Finalization Service (finalize,
  catch-up scan, manual finalization).

Modelling conventions:

* Async methods become pure state-passing functions; `Date.now()` and
  `Math.random()` become explicit parameters or tape fields of the state.
* The IndexedDB `pendingOperations` object store is modelled as a list kept
  sorted ascending by its key path `id`, because IndexedDB object stores are
  ordered by key and `getAll()` returns records in ascending key order
  (string keys compare lexicographically by code unit, modelled by `keyLt`).
* Remote (Firebase) calls are represented by a `GatewayCall` value; whether a
  call succeeds is decided by an oracle `GatewayCall → Bool` supplied per
  drain pass.
* A JavaScript property access on an object that lacks the property yields
  `undefined`, which is falsy; this matters for the sealed-record check and is
  modelled explicitly by `lookupIsFinalized`.
-/

/-- Operation kind of a pending operation (`type` field in the source). -/
inductive OpType where
  | CREATE
  | UPDATE
  | DELETE
deriving DecidableEq, Repr

/-- A meal record as used by the sync queue (`mealService.ts` fields accessed
by `executeMealOperation`: `memberId`, `date`, `type`, and `id`). -/
structure Meal where
  id : String
  memberId : String
  date : String
  mealType : String
  timestamp : Nat
deriving DecidableEq, Repr

/-- Fields of an expense payload accessed by `executeExpenseOperation`. -/
structure ExpenseData where
  id : String
deriving DecidableEq, Repr

/-- Fields of a member payload accessed by `executeMemberOperation`. -/
structure MemberData where
  id : String
deriving DecidableEq, Repr

/-- `DayFinalizationRecord` from `dayFinalizationService.ts`. -/
structure DayFinalizationRecord where
  date : String
  finalizedAt : Nat
  mealCount : Nat
  memberIds : List String
  timeZone : String
  isFinalized : Bool
deriving DecidableEq, Repr

/-- The `data` payload of a pending operation.  In the source this is `any`;
the modelled flows only ever put one of these four shapes in the queue. -/
inductive OpData where
  | meal (m : Meal)
  | expense (e : ExpenseData)
  | member (m : MemberData)
  | finRecord (r : DayFinalizationRecord)
deriving DecidableEq, Repr

/-- A call made against the Remote Data Gateway (`FirebaseService`). -/
inductive GatewayCall where
  | pushData (path : String) (data : OpData)
  | setData (path : String) (data : OpData)
  | removeData (path : String)
deriving DecidableEq, Repr

/-- `OfflineOperation` from `offlineStorageService.ts`.  The `collection`
field is a `String`: the TS union type is `'meals'|'expenses'|'members'`,
but `dayFinalizationService.saveFinalizationRecord` passes
`'day_finalizations'` through `syncManager.queueOperation`, so the runtime
value is not confined to the union. -/
structure OfflineOperation where
  id : String
  opType : OpType
  collection : String
  data : OpData
  timestamp : Nat
  retryCount : Nat
  maxRetries : Nat
deriving DecidableEq, Repr

/-! ## Persistent Local Store (`offlineStorageService.ts`) -/

/-- Operation id generated by `addPendingOperation`:
`` `${operation.collection}_${Date.now()}_${Math.random().toString(36).substr(2, 9)}` ``. -/
def mkOperationId (collection : String) (now : Nat) (rand : String) : String :=
  collection ++ "_" ++ toString now ++ "_" ++ rand

/-- IndexedDB key comparison for string keys: lexicographic by code unit
(all keys produced here are ASCII, so code-unit and code-point order agree). -/
def keyLtList : List Char → List Char → Bool
  | [], [] => false
  | [], _ :: _ => true
  | _ :: _, [] => false
  | a :: as, b :: bs =>
      if a.toNat < b.toNat then true
      else if b.toNat < a.toNat then false
      else keyLtList as bs

/-- Key order on the string keys of an object store. -/
def keyLt (a b : String) : Bool := keyLtList a.data b.data

/-- `store.add` on the `pendingOperations` object store: IndexedDB keeps
records sorted ascending by key (`id`), so the model inserts in key order. -/
def insertByKey (op : OfflineOperation) : List OfflineOperation → List OfflineOperation
  | [] => [op]
  | o :: rest => if keyLt op.id o.id then op :: o :: rest else o :: insertByKey op rest

/-- `addPendingOperation`: builds the full operation (fresh id,
`retryCount := 0`, `maxRetries := 3`) and adds it to the store. -/
def addPendingOperation (opType : OpType) (collection : String) (data : OpData)
    (now : Nat) (rand : String) (store : List OfflineOperation) :
    List OfflineOperation :=
  insertByKey
    { id := mkOperationId collection now rand
      opType := opType
      collection := collection
      data := data
      timestamp := now
      retryCount := 0
      maxRetries := 3 } store

/-- `getPendingOperations`: `store.getAll()` returns all records in ascending
key order, which is exactly the order the model maintains. -/
def getPendingOperations (store : List OfflineOperation) : List OfflineOperation :=
  store

/-- `removePendingOperation`: `store.delete(operationId)` (keys are unique). -/
def removePendingOperation (operationId : String) (store : List OfflineOperation) :
    List OfflineOperation :=
  store.filter (fun o => o.id ≠ operationId)

/-- `updateOperationRetryCount`: reads the stored record and puts it back with
`retryCount` incremented by one. -/
def updateOperationRetryCount (operationId : String) (store : List OfflineOperation) :
    List OfflineOperation :=
  store.map (fun o => if o.id = operationId then { o with retryCount := o.retryCount + 1 } else o)

/-! ## Sync Coordinator drain (`syncManager.ts`) -/

/-- Errors thrown by `executeOperation` before any gateway call is made. -/
inductive ExecError where
  | unknownCollection (c : String)
  | unsupportedOperation
  | badPayload
deriving DecidableEq, Repr

/-- `executeOperation` and its per-collection helpers, reduced to the single
gateway call they would make.  The `switch (collection)` has cases only for
`meals`, `expenses` and `members`; anything else throws
`Unknown collection: ...` before touching the gateway. -/
def executeOperation (op : OfflineOperation) : Except ExecError GatewayCall :=
  if op.collection = "meals" then
    match op.opType, op.data with
    | OpType.CREATE, OpData.meal m =>
        Except.ok (GatewayCall.setData
          ("meals/" ++ m.memberId ++ "-" ++ m.date ++ "-" ++ m.mealType) op.data)
    | OpType.DELETE, OpData.meal m =>
        Except.ok (GatewayCall.removeData ("meals/" ++ m.id))
    | OpType.UPDATE, _ => Except.error ExecError.unsupportedOperation
    | _, _ => Except.error ExecError.badPayload
  else if op.collection = "expenses" then
    match op.opType, op.data with
    | OpType.CREATE, _ => Except.ok (GatewayCall.pushData "expenses" op.data)
    | OpType.UPDATE, OpData.expense e =>
        Except.ok (GatewayCall.setData ("expenses/" ++ e.id) op.data)
    | OpType.DELETE, OpData.expense e =>
        Except.ok (GatewayCall.removeData ("expenses/" ++ e.id))
    | _, _ => Except.error ExecError.badPayload
  else if op.collection = "members" then
    match op.opType, op.data with
    | OpType.CREATE, _ => Except.ok (GatewayCall.pushData "members" op.data)
    | OpType.UPDATE, OpData.member m =>
        Except.ok (GatewayCall.setData ("members/" ++ m.id) op.data)
    | OpType.DELETE, OpData.member m =>
        Except.ok (GatewayCall.removeData ("members/" ++ m.id))
    | _, _ => Except.error ExecError.badPayload
  else
    Except.error (ExecError.unknownCollection op.collection)

/-- The human-readable entry pushed to `syncErrors` when an operation is
dropped: `` `Operation ${operation.id} failed after ${operation.maxRetries} retries` ``. -/
def dropMessage (op : OfflineOperation) : String :=
  "Operation " ++ op.id ++ " failed after " ++ toString op.maxRetries ++ " retries"

/-- Mutable context of one drain pass: the live `pendingOperations` store,
the pass-local `syncErrors` array, and the log of gateway calls made. -/
structure PassState where
  store : List OfflineOperation
  errors : List String
  calls : List GatewayCall
deriving Repr

/-- One iteration of the drain loop body for a snapshot operation `op`:
try `executeOperation` (recording the gateway call if one is made, the
oracle `remote` deciding its success); on success remove the operation; on
failure bump its stored retry count and, if the snapshot's (pre-bump)
`retryCount` has reached `maxRetries`, remove it and append a sync error. -/
def syncOne (remote : GatewayCall → Bool) (op : OfflineOperation) (ps : PassState) :
    PassState :=
  match executeOperation op with
  | Except.ok c =>
      if remote c then
        { ps with
            store := removePendingOperation op.id ps.store
            calls := ps.calls ++ [c] }
      else
        let st := updateOperationRetryCount op.id ps.store
        if op.maxRetries ≤ op.retryCount then
          { store := removePendingOperation op.id st
            errors := ps.errors ++ [dropMessage op]
            calls := ps.calls ++ [c] }
        else
          { ps with store := st, calls := ps.calls ++ [c] }
  | Except.error _ =>
      let st := updateOperationRetryCount op.id ps.store
      if op.maxRetries ≤ op.retryCount then
        { store := removePendingOperation op.id st
          errors := ps.errors ++ [dropMessage op]
          calls := ps.calls }
      else
        { ps with store := st }

/-- The `for (const operation of pendingOps)` loop over the snapshot. -/
def syncLoop (remote : GatewayCall → Bool) (snapshot : List OfflineOperation)
    (ps : PassState) : PassState :=
  snapshot.foldl (fun ps op => syncOne remote op ps) ps

/-- One full drain pass of `syncPendingOperations` (already past the
`isOnline`/`isSyncing` guard): snapshot the queue, run the loop. -/
def syncPendingOperationsPass (remote : GatewayCall → Bool)
    (queue : List OfflineOperation) : PassState :=
  syncLoop remote (getPendingOperations queue) { store := queue, errors := [], calls := [] }

/-! ### Drain-pass characterization

The loop above mutates the live store by id while iterating a snapshot.  The
following "one-shot" description of a pass is proved equal to it whenever the
queue's ids are distinct (IndexedDB keys are unique, so this always holds for
a real store). -/

/-- The stored record after `updateOperationRetryCount`. -/
def bumpOp (op : OfflineOperation) : OfflineOperation :=
  { op with retryCount := op.retryCount + 1 }

/-- Whether the attempt for `op` fails (either the gateway call fails, or
`executeOperation` throws before a call is made). -/
def opFails (remote : GatewayCall → Bool) (op : OfflineOperation) : Bool :=
  match executeOperation op with
  | Except.ok c => !remote c
  | Except.error _ => true

/-- What remains of `op` in the store after its attempt in a drain pass:
`none` if it is removed (success, or failure with the pre-bump `retryCount`
at `maxRetries`), otherwise the bumped operation. -/
def opSurvives (remote : GatewayCall → Bool) (op : OfflineOperation) :
    Option OfflineOperation :=
  if opFails remote op then
    if op.maxRetries ≤ op.retryCount then none else some (bumpOp op)
  else none

/-- Queue contents after one drain pass. -/
def passStoreSpec (remote : GatewayCall → Bool) (q : List OfflineOperation) :
    List OfflineOperation :=
  q.filterMap (opSurvives remote)

/-- `syncErrors` entries collected by one drain pass. -/
def passErrorsSpec (remote : GatewayCall → Bool) (q : List OfflineOperation) :
    List String :=
  (q.filter (fun op => opFails remote op && decide (op.maxRetries ≤ op.retryCount))).map
    dropMessage

/-- Gateway calls made by one drain pass, in dispatch order. -/
def passCallsSpec (q : List OfflineOperation) : List GatewayCall :=
  q.filterMap (fun op => (executeOperation op).toOption)

/-- Retry budget of an operation: how many more failing passes it can sit in
the queue for (counting the pass that drops it). -/
def slack (op : OfflineOperation) : Nat := op.maxRetries + 1 - op.retryCount

/-- Largest retry budget in a queue. -/
def slackBound (q : List OfflineOperation) : Nat :=
  q.foldr (fun op m => max (slack op) m) 0


/-- Queue after `k` completed drain passes against a fixed remote behavior
(each triggered by the 30s periodic timer while online and not syncing). -/
def runPasses (remote : GatewayCall → Bool) : Nat → List OfflineOperation → List OfflineOperation
  | 0, q => q
  | k + 1, q => (syncPendingOperationsPass remote (runPasses remote k q)).store

/-- Queue evolution under a connectivity trace: on tick `t` the periodic sync
runs one drain pass when `online t` holds (`syncPendingOperations` returns
immediately while offline), with per-tick remote behavior `remote t`. -/
def syncTicks (online : Nat → Bool) (remote : Nat → GatewayCall → Bool)
    (q0 : List OfflineOperation) : Nat → List OfflineOperation
  | 0 => q0
  | t + 1 =>
      if online t then (syncPendingOperationsPass (remote t) (syncTicks online remote q0 t)).store
      else syncTicks online remote q0 t


/-- The full `OfflineOperation` record built by `addPendingOperation` from a
`queueOperation` request (`now` is `Date.now()`, `rand` the random suffix). -/
def toPendingOperation (opType : OpType) (collection : String) (data : OpData)
    (now : Nat) (rand : String) : OfflineOperation :=
  { id := mkOperationId collection now rand
    opType := opType
    collection := collection
    data := data
    timestamp := now
    retryCount := 0
    maxRetries := 3 }

/-- One call of `syncManager.queueOperation` as seen by the store. -/
structure QueuedRequest where
  opType : OpType
  collection : String
  data : OpData
  now : Nat
  rand : String
deriving DecidableEq, Repr

/-- Generated id of a queued request. -/
def QueuedRequest.genId (r : QueuedRequest) : String :=
  mkOperationId r.collection r.now r.rand

/-- The stored operation a queued request becomes. -/
def QueuedRequest.toOp (r : QueuedRequest) : OfflineOperation :=
  toPendingOperation r.opType r.collection r.data r.now r.rand

/-- A sequence of `queueOperation` calls, applied in order. -/
def enqueueAll (reqs : List QueuedRequest) (store : List OfflineOperation) :
    List OfflineOperation :=
  reqs.foldl (fun st r => addPendingOperation r.opType r.collection r.data r.now r.rand st) store

/-- Remote behavior in which every gateway call fails (`NetworkError` on
every attempt). -/
def alwaysFail : GatewayCall → Bool := fun _ => false

/-- Concrete pending operation used to exercise the retry cap: an offline
expense CREATE with the default `maxRetries = 3`. -/
def c2op : OfflineOperation :=
  { id := "expenses_1000_a1b2c3d4e"
    opType := OpType.CREATE
    collection := "expenses"
    data := OpData.expense { id := "e1" }
    timestamp := 1000
    retryCount := 0
    maxRetries := 3 }



/-- Concrete enqueue sequence exercising cross-collection drain order: a meal
CREATE enqueued first, an expense CREATE enqueued second. -/
def c3reqA : QueuedRequest :=
  { opType := OpType.CREATE
    collection := "meals"
    data := OpData.meal
      { id := "", memberId := "m1", date := "2025-01-15", mealType := "breakfast",
        timestamp := 1000 }
    now := 1000
    rand := "r1" }

def c3reqB : QueuedRequest :=
  { opType := OpType.CREATE
    collection := "expenses"
    data := OpData.expense { id := "e1" }
    now := 1001
    rand := "r2" }

/-- Concrete same-collection enqueue sequence (ascending generated ids). -/
def c3reqs : List QueuedRequest :=
  [ { opType := OpType.CREATE
      collection := "meals"
      data := OpData.meal
        { id := "", memberId := "m1", date := "2025-01-15", mealType := "breakfast",
          timestamp := 1000 }
      now := 1000
      rand := "r1" }
  , { opType := OpType.CREATE
      collection := "meals"
      data := OpData.meal
        { id := "", memberId := "m2", date := "2025-01-15", mealType := "lunch",
          timestamp := 1001 }
      now := 1001
      rand := "r2" }
  , { opType := OpType.DELETE
      collection := "meals"
      data := OpData.meal
        { id := "k3", memberId := "m1", date := "2025-01-14", mealType := "dinner",
          timestamp := 1002 }
      now := 1002
      rand := "r3" } ]



/-! ## Day Finalization Service (`dayFinalizationService.ts`) -/

/-- `FinalizationEvent` from `dayFinalizationService.ts`. -/
structure FinalizationEvent where
  date : String
  meals : List Meal
  finalizationRecord : DayFinalizationRecord
  timestamp : Nat
deriving DecidableEq, Repr

/-- The `OfflineData` wrapper `offlineStorageService.storeData` puts into an
object store (here instantiated at the `day_finalizations` store): the
payload nests under the `data` field. -/
structure OfflineData where
  id : String
  data : DayFinalizationRecord
  timestamp : Nat
  lastSync : Nat
  isOffline : Bool
deriving DecidableEq, Repr

/-- Keyed write into a string-keyed store (Firebase `set` at a path, or
IndexedDB `put`): later reads of the key see the value, other keys are
unaffected. -/
def setKey {α : Type} (f : String → Option α) (k : String) (v : α) :
    String → Option α :=
  fun k' => if k' = k then some v else f k'

/-- State threaded through the finalization flows: connectivity
(`navigator.onLine`), clock and timezone, the remote store paths `meals` and
`day_finalizations/*`, the offline caches, the pending-operation queue, and
logs of remote writes and emitted finalization events.  `randTape`/`randIdx`
supply the `Math.random()` suffixes of generated operation ids;
`finReadFails d` says whether the Firebase read of `day_finalizations/{d}`
throws a `NetworkError`. -/
structure AppState where
  isOnline : Bool
  now : Nat
  timeZone : String
  randTape : Nat → String
  randIdx : Nat
  remoteMeals : List Meal
  remoteFins : String → Option DayFinalizationRecord
  finReadFails : String → Bool
  localMeals : List Meal
  localFins : String → Option OfflineData
  pending : List OfflineOperation
  gatewayWrites : List GatewayCall
  finEvents : List FinalizationEvent

/-- Value returned by `getFinalizationRecord`: online it is the raw record
read back from Firebase (`setData` stored the plain record at
`day_finalizations/{date}`); offline it is the `OfflineData` wrapper that
`storeData` put in the object store (`offlineStorageService.getData` returns
the stored object as-is); or null when absent. -/
inductive FinLookup where
  | null
  | record (r : DayFinalizationRecord)
  | wrapper (w : OfflineData)
deriving DecidableEq, Repr

/-- Truthiness of `existingFinalization && existingFinalization.isFinalized`:
on the offline wrapper the property access `.isFinalized` yields `undefined`
(the record sits under `.data`), which is falsy. -/
def lookupIsFinalized : FinLookup → Bool
  | FinLookup.null => false
  | FinLookup.record r => r.isFinalized
  | FinLookup.wrapper _ => false

/-- `getFinalizationRecord`: online it tries the Firebase read of
`day_finalizations/{date}`; when that read throws, the catch falls back to
`offlineStorageService.getData` and returns the `OfflineData` wrapper, just
like the offline branch does. -/
def getFinalizationRecord (s : AppState) (date : String) : FinLookup :=
  if s.isOnline then
    if s.finReadFails date then
      match s.localFins date with
      | some w => FinLookup.wrapper w
      | none => FinLookup.null
    else
      match s.remoteFins date with
      | some r => FinLookup.record r
      | none => FinLookup.null
  else
    match s.localFins date with
    | some w => FinLookup.wrapper w
    | none => FinLookup.null

/-- `isDayFinalized`. -/
def isDayFinalized (s : AppState) (date : String) : Bool :=
  lookupIsFinalized (getFinalizationRecord s date)

/-- `getMealsForDate`: online filters the Firebase `meals` collection by
date; offline filters the offline cache. -/
def getMealsForDate (s : AppState) (date : String) : List Meal :=
  if s.isOnline then s.remoteMeals.filter (fun m => m.date = date)
  else s.localMeals.filter (fun m => m.date = date)

/-- `[...new Set(xs)]`: a `Set` keeps insertion order and skips values
already present, so spreading it back deduplicates keeping first
occurrences. -/
def jsSetDedup (l : List String) : List String :=
  l.foldl (fun acc x => if x ∈ acc then acc else acc ++ [x]) []

/-- The `DayFinalizationRecord` built by `finalizeDayMeals`. -/
def buildFinalizationRecord (s : AppState) (date : String) (meals : List Meal) :
    DayFinalizationRecord :=
  { date := date
    finalizedAt := s.now
    mealCount := meals.length
    memberIds := jsSetDedup (meals.map (fun m => m.memberId))
    timeZone := s.timeZone
    isFinalized := true }

/-- `offlineStorageService.storeData('day_finalizations', date, record,
isOffline)`. -/
def storeDataFin (s : AppState) (date : String) (r : DayFinalizationRecord)
    (isOffline : Bool) : AppState :=
  { s with
      localFins := setKey s.localFins date
        { id := date
          data := r
          timestamp := s.now
          lastSync := if isOffline then 0 else s.now
          isOffline := isOffline } }

/-- `syncManager.queueOperation('CREATE', 'day_finalizations', record)` as
called from the offline branch of `saveFinalizationRecord` (the immediate
drain kick inside `queueOperation` is guarded by `isOnline` and cannot fire
there). -/
def queueOperationFin (s : AppState) (r : DayFinalizationRecord) : AppState :=
  { s with
      pending := addPendingOperation OpType.CREATE "day_finalizations"
        (OpData.finRecord r) s.now (s.randTape s.randIdx) s.pending
      randIdx := s.randIdx + 1 }

/-- `saveFinalizationRecord`: online writes the record to Firebase at
`day_finalizations/{date}` and mirrors it to the local cache clean; offline
stores it locally dirty and enqueues a CREATE pending operation. -/
def saveFinalizationRecord (s : AppState) (r : DayFinalizationRecord) : AppState :=
  if s.isOnline then
    let s1 := { s with
      remoteFins := setKey s.remoteFins r.date r
      gatewayWrites := s.gatewayWrites ++
        [GatewayCall.setData ("day_finalizations/" ++ r.date) (OpData.finRecord r)] }
    storeDataFin s1 r.date r false
  else
    queueOperationFin (storeDataFin s r.date r true) r

/-- `finalizeDayMeals`: return immediately when the existing lookup reads as
finalized; otherwise snapshot the day's meals, build the record, persist it
through `saveFinalizationRecord` and emit the finalization event. -/
def finalizeDayMeals (s : AppState) (date : String) : AppState :=
  if lookupIsFinalized (getFinalizationRecord s date) then s
  else
    let meals := getMealsForDate s date
    let r := buildFinalizationRecord s date meals
    let s1 := saveFinalizationRecord s r
    { s1 with finEvents := s1.finEvents ++
        [{ date := date, meals := meals, finalizationRecord := r, timestamp := s1.now }] }

/-- `manuallyFinalizeDayMeals(date, force)`: without `force` it throws when
the day reads as finalized; otherwise it delegates to `finalizeDayMeals`. -/
def manuallyFinalizeDayMeals (s : AppState) (date : String) (force : Bool) :
    Except String AppState :=
  if !force && isDayFinalized s date then
    Except.error ("Day " ++ date ++ " is already finalized. Use force=true to re-finalize.")
  else Except.ok (finalizeDayMeals s date)

/-- An empty offline app state used for concrete evaluations. -/
def emptyAppState : AppState :=
  { isOnline := false
    now := 5000
    timeZone := "Asia/Dhaka"
    randTape := fun n => "r" ++ toString n
    randIdx := 0
    remoteMeals := []
    remoteFins := fun _ => none
    finReadFails := fun _ => false
    localMeals := []
    localFins := fun _ => none
    pending := []
    gatewayWrites := []
    finEvents := [] }

/-! ## Sync Coordinator mutual exclusion (`syncManager.ts`) -/

/-- Coordinator control state: `isOnline` and `isSyncing` are the fields of
`SyncManager`; `inFlight` is a ghost counter of drain passes currently
executing, tracked to state mutual exclusion; `pending` is the queue. -/
structure MxState where
  isOnline : Bool
  isSyncing : Bool
  inFlight : Nat
  pending : List OfflineOperation

/-- Scheduler actions: `request` covers every path into
`syncPendingOperations` (periodic tick, online transition, post-enqueue
kick, force sync); `finish` is the completion of the in-flight pass (its
`finally` clears `isSyncing`); the connectivity handlers flip `isOnline`. -/
inductive MxAction where
  | request
  | finish (remote : GatewayCall → Bool)
  | goOnline
  | goOffline

/-- One scheduler step.  The guard check and `isSyncing := true` of
`syncPendingOperations` happen atomically before its first await
(single-threaded run-to-completion), so a request while offline or while a
drain is in flight returns with the state untouched. -/
def mxStep (s : MxState) : MxAction → MxState
  | MxAction.request =>
      if s.isOnline && !s.isSyncing then
        { s with isSyncing := true, inFlight := s.inFlight + 1 }
      else s
  | MxAction.finish remote =>
      if s.isSyncing then
        { s with
            isSyncing := false
            inFlight := s.inFlight - 1
            pending := (syncPendingOperationsPass remote s.pending).store }
      else s
  | MxAction.goOnline => { s with isOnline := true }
  | MxAction.goOffline => { s with isOnline := false }

/-- Run a list of scheduler actions. -/
def mxRun (s : MxState) (acts : List MxAction) : MxState :=
  acts.foldl mxStep s

/-- Freshly constructed coordinator: not syncing, nothing in flight. -/
def mxInit (online : Bool) (q : List OfflineOperation) : MxState :=
  { isOnline := online, isSyncing := false, inFlight := 0, pending := q }

/-! ## Time Service day transitions (`timeService.ts`) -/

/-- `DayTransitionEvent` from `timeService.ts`. -/
structure DayTransitionEvent where
  previousDate : String
  currentDate : String
  timestamp : Nat
  timeZone : String
deriving DecidableEq, Repr

/-- Time Service monitoring state: the recorded `currentDate` and the
registered day-transition callbacks, each modelled as a function of the
delivered event and of the service's `currentDate` as read at invocation
time. -/
structure TimeState (β : Type) where
  currentDate : String
  dayTransitionCallbacks : List (DayTransitionEvent → String → β)

/-- `checkForDayTransition`, run on each monitoring tick with the freshly
computed date (`getCurrentDateString()`), the clock and the resolved time
zone: on mismatch it builds the event from the old recorded date, updates
`currentDate`, and then invokes every callback synchronously before
returning — so each callback reads the already-updated `currentDate`.
Returns the new state and the callback results (`[]` when no transition was
detected). -/
def checkForDayTransition {β : Type} (newDate : String) (nowTs : Nat) (tz : String)
    (s : TimeState β) : TimeState β × List β :=
  if newDate = s.currentDate then (s, [])
  else
    let event : DayTransitionEvent :=
      { previousDate := s.currentDate
        currentDate := newDate
        timestamp := nowTs
        timeZone := tz }
    let s' : TimeState β := { s with currentDate := newDate }
    (s', s'.dayTransitionCallbacks.map (fun cb => cb event s'.currentDate))

/-! ## Event delivery with per-subscriber error isolation -/

/-- `SyncEvent` from `syncManager.ts` (payload reduced to what the delivery
loops inspect). -/
structure SyncEvent where
  eventType : String
  errors : List String
deriving DecidableEq, Repr

/-- A `forEach` loop with a per-callback `try/catch`: every listener is
invoked (first component `true`), a thrown error is caught and logged
(`some e`) and the loop continues with the remaining listeners. -/
def notifyEach {ε : Type} (listeners : List (ε → Except String Unit)) (event : ε) :
    List (Bool × Option String) :=
  listeners.map (fun l =>
    match l event with
    | Except.ok _ => (true, none)
    | Except.error e => (true, some e))

/-- `SyncManager.notifyListeners`. -/
def notifyListeners (listeners : List (SyncEvent → Except String Unit))
    (event : SyncEvent) : List (Bool × Option String) :=
  notifyEach listeners event

/-- `DayFinalizationService.notifyFinalizationCallbacks`. -/
def notifyFinalizationCallbacks
    (cbs : List (FinalizationEvent → Except String Unit))
    (event : FinalizationEvent) : List (Bool × Option String) :=
  notifyEach cbs event

/-- The callback loop inside `TimeService.checkForDayTransition` (same
per-callback `try/catch` shape). -/
def notifyDayTransitionCallbacks
    (cbs : List (DayTransitionEvent → Except String Unit))
    (event : DayTransitionEvent) : List (Bool × Option String) :=
  notifyEach cbs event



/-- A sealed finalization record and an online state holding it remotely,
used to exercise the already-sealed paths. -/
def sealedRecord : DayFinalizationRecord :=
  { date := "2025-01-10"
    finalizedAt := 100
    mealCount := 2
    memberIds := ["m1"]
    timeZone := "Asia/Dhaka"
    isFinalized := true }

def c10state : AppState :=
  { emptyAppState with
      isOnline := true
      remoteFins := fun d => if d = "2025-01-10" then some sealedRecord else none }



/-- Online state in which the remote record for the sealed day exists but
its Firebase read throws, with the sealed record's wrapper cached locally. -/
def c10failState : AppState :=
  { c10state with
      finReadFails := fun d => decide (d = "2025-01-10")
      localFins := fun d =>
        if d = "2025-01-10" then
          some { id := "2025-01-10", data := sealedRecord, timestamp := 1,
                 lastSync := 0, isOffline := false }
        else none }


/-! ## Lemmas and theorems -/

theorem removePendingOperation_of_not_mem {id : String} {st : List OfflineOperation}
    (h : ∀ o ∈ st, o.id ≠ id) : removePendingOperation id st = st := by
  induction st with
  | nil => rfl
  | cons x xs ih =>
      have hx : x.id ≠ id := h x (List.mem_cons_self _ _)
      simp only [removePendingOperation, List.filter_cons] at *
      rw [if_pos (by simpa using hx)]
      have := ih (fun o ho => h o (List.mem_cons_of_mem _ ho))
      simpa [removePendingOperation] using this

theorem removePendingOperation_head {h : OfflineOperation} {t : List OfflineOperation}
    (ht : ∀ o ∈ t, o.id ≠ h.id) :
    removePendingOperation h.id (h :: t) = t := by
  simp only [removePendingOperation, List.filter_cons]
  rw [if_neg (by simp)]
  simpa [removePendingOperation] using removePendingOperation_of_not_mem ht

theorem updateOperationRetryCount_of_not_mem {id : String} {st : List OfflineOperation}
    (h : ∀ o ∈ st, o.id ≠ id) : updateOperationRetryCount id st = st := by
  induction st with
  | nil => rfl
  | cons x xs ih =>
      have hx : x.id ≠ id := h x (List.mem_cons_self _ _)
      simp only [updateOperationRetryCount, List.map_cons] at *
      rw [if_neg hx]
      have := ih (fun o ho => h o (List.mem_cons_of_mem _ ho))
      simpa [updateOperationRetryCount] using this

theorem updateOperationRetryCount_head {h : OfflineOperation} {t : List OfflineOperation}
    (ht : ∀ o ∈ t, o.id ≠ h.id) :
    updateOperationRetryCount h.id (h :: t) = bumpOp h :: t := by
  have ht' := updateOperationRetryCount_of_not_mem ht
  simp only [updateOperationRetryCount, List.map_cons] at ht' ⊢
  rw [if_pos trivial, ht']
  rfl

theorem remove_cons {x : OfflineOperation} {idv : String} (hx : x.id ≠ idv)
    (st : List OfflineOperation) :
    removePendingOperation idv (x :: st) = x :: removePendingOperation idv st := by
  simp only [removePendingOperation, List.filter_cons]
  rw [if_pos (by simpa using hx)]

theorem bump_cons {x : OfflineOperation} {idv : String} (hx : x.id ≠ idv)
    (st : List OfflineOperation) :
    updateOperationRetryCount idv (x :: st) = x :: updateOperationRetryCount idv st := by
  simp only [updateOperationRetryCount, List.map_cons]
  rw [if_neg hx]

theorem syncOne_cons {remote : GatewayCall → Bool} {op x : OfflineOperation}
    {st : List OfflineOperation} {e : List String} {c : List GatewayCall}
    (hx : x.id ≠ op.id) :
    syncOne remote op ⟨x :: st, e, c⟩ =
      { store := x :: (syncOne remote op ⟨st, e, c⟩).store
        errors := (syncOne remote op ⟨st, e, c⟩).errors
        calls := (syncOne remote op ⟨st, e, c⟩).calls } := by
  unfold syncOne
  cases hex : executeOperation op with
  | ok c0 =>
      by_cases hr : remote c0
      · simp [hr, remove_cons hx]
      · by_cases hm : op.maxRetries ≤ op.retryCount
        · simp [hr, hm, remove_cons hx, bump_cons hx]
        · simp [hr, hm, bump_cons hx]
  | error err =>
      by_cases hm : op.maxRetries ≤ op.retryCount
      · simp [hm, remove_cons hx, bump_cons hx]
      · simp [hm, bump_cons hx]

theorem syncLoop_cons {remote : GatewayCall → Bool} {x : OfflineOperation}
    (ops : List OfflineOperation) (hx : ∀ op ∈ ops, x.id ≠ op.id)
    (st : List OfflineOperation) (e : List String) (c : List GatewayCall) :
    syncLoop remote ops ⟨x :: st, e, c⟩ =
      { store := x :: (syncLoop remote ops ⟨st, e, c⟩).store
        errors := (syncLoop remote ops ⟨st, e, c⟩).errors
        calls := (syncLoop remote ops ⟨st, e, c⟩).calls } := by
  induction ops generalizing st e c with
  | nil => rfl
  | cons op rest ih =>
      simp only [syncLoop, List.foldl_cons]
      rw [syncOne_cons (hx op (List.mem_cons_self _ _))]
      have hrest : ∀ o ∈ rest, x.id ≠ o.id :=
        fun o ho => hx o (List.mem_cons_of_mem _ ho)
      have := ih hrest (syncOne remote op ⟨st, e, c⟩).store
        (syncOne remote op ⟨st, e, c⟩).errors (syncOne remote op ⟨st, e, c⟩).calls
      simpa [syncLoop] using this

theorem syncLoop_spec (remote : GatewayCall → Bool) :
    ∀ (q : List OfflineOperation), (q.map (fun o => o.id)).Nodup →
      ∀ (e : List String) (c : List GatewayCall),
        syncLoop remote q ⟨q, e, c⟩ =
          { store := passStoreSpec remote q
            errors := e ++ passErrorsSpec remote q
            calls := c ++ passCallsSpec q } := by
  intro q
  induction q with
  | nil =>
      intro _ e c
      simp [syncLoop, passStoreSpec, passErrorsSpec, passCallsSpec]
  | cons op rest ih =>
      intro hq e c
      rw [List.map_cons, List.nodup_cons] at hq
      have hrest : (rest.map (fun o => o.id)).Nodup := hq.2
      have hid : ∀ o ∈ rest, o.id ≠ op.id := by
        intro o ho heq
        exact hq.1 (heq ▸ List.mem_map_of_mem _ ho)
      simp only [syncLoop, List.foldl_cons]
      cases hex : executeOperation op with
      | ok c0 =>
          by_cases hr : remote c0
          · have h1 : syncOne remote op ⟨op :: rest, e, c⟩ =
                ⟨rest, e, c ++ [c0]⟩ := by
              simp [syncOne, hex, hr, removePendingOperation_head hid]
            rw [h1]
            have h2 := ih hrest e (c ++ [c0])
            simp only [syncLoop] at h2
            rw [h2]
            simp [passStoreSpec, passErrorsSpec, passCallsSpec, List.filterMap_cons,
              List.filter_cons, opSurvives, opFails, hex, hr, Except.toOption]
          · by_cases hm : op.maxRetries ≤ op.retryCount
            · have hbump : removePendingOperation op.id
                  (updateOperationRetryCount op.id (op :: rest)) = rest := by
                rw [updateOperationRetryCount_head hid]
                exact removePendingOperation_head (h := bumpOp op) hid
              have h1 : syncOne remote op ⟨op :: rest, e, c⟩ =
                  ⟨rest, e ++ [dropMessage op], c ++ [c0]⟩ := by
                simp [syncOne, hex, hr, hm, hbump]
              rw [h1]
              have h2 := ih hrest (e ++ [dropMessage op]) (c ++ [c0])
              simp only [syncLoop] at h2
              rw [h2]
              simp [passStoreSpec, passErrorsSpec, passCallsSpec, List.filterMap_cons,
                List.filter_cons, opSurvives, opFails, hex, hr, hm, Except.toOption]
            · have h1 : syncOne remote op ⟨op :: rest, e, c⟩ =
                  ⟨bumpOp op :: rest, e, c ++ [c0]⟩ := by
                simp [syncOne, hex, hr, hm, updateOperationRetryCount_head hid]
              rw [h1]
              have hid' : ∀ o ∈ rest, (bumpOp op).id ≠ o.id :=
                fun o ho => (hid o ho).symm
              have h2 := @syncLoop_cons remote (bumpOp op) rest hid'
                rest e (c ++ [c0])
              simp only [syncLoop] at h2
              rw [h2]
              have h3 := ih hrest e (c ++ [c0])
              simp only [syncLoop] at h3
              rw [h3]
              simp [passStoreSpec, passErrorsSpec, passCallsSpec, List.filterMap_cons,
                List.filter_cons, opSurvives, opFails, hex, hr, hm, Except.toOption]
      | error err =>
          by_cases hm : op.maxRetries ≤ op.retryCount
          · have hbump : removePendingOperation op.id
                (updateOperationRetryCount op.id (op :: rest)) = rest := by
              rw [updateOperationRetryCount_head hid]
              exact removePendingOperation_head (h := bumpOp op) hid
            have h1 : syncOne remote op ⟨op :: rest, e, c⟩ =
                ⟨rest, e ++ [dropMessage op], c⟩ := by
              simp [syncOne, hex, hm, hbump]
            rw [h1]
            have h2 := ih hrest (e ++ [dropMessage op]) c
            simp only [syncLoop] at h2
            rw [h2]
            simp [passStoreSpec, passErrorsSpec, passCallsSpec, List.filterMap_cons,
              List.filter_cons, opSurvives, opFails, hex, hm, Except.toOption]
          · have h1 : syncOne remote op ⟨op :: rest, e, c⟩ =
                ⟨bumpOp op :: rest, e, c⟩ := by
              simp [syncOne, hex, hm, updateOperationRetryCount_head hid]
            rw [h1]
            have hid' : ∀ o ∈ rest, (bumpOp op).id ≠ o.id :=
              fun o ho => (hid o ho).symm
            have h2 := @syncLoop_cons remote (bumpOp op) rest hid'
              rest e c
            simp only [syncLoop] at h2
            rw [h2]
            have h3 := ih hrest e c
            simp only [syncLoop] at h3
            rw [h3]
            simp [passStoreSpec, passErrorsSpec, passCallsSpec, List.filterMap_cons,
              List.filter_cons, opSurvives, opFails, hex, hm, Except.toOption]

/-- A drain pass over a queue with distinct operation ids is exactly the
one-shot description: surviving operations are the failed-but-not-exhausted
ones (bumped, in order), the collected errors are the drop messages of the
exhausted ones, and the gateway receives the constructible calls in queue
order. -/
theorem syncPendingOperationsPass_spec (remote : GatewayCall → Bool)
    (q : List OfflineOperation) (hq : (q.map (fun o => o.id)).Nodup) :
    syncPendingOperationsPass remote q =
      { store := passStoreSpec remote q
        errors := passErrorsSpec remote q
        calls := passCallsSpec q } := by
  simpa [syncPendingOperationsPass, getPendingOperations] using
    syncLoop_spec remote q hq [] []

/-! ### Retry bookkeeping across repeated drain passes -/

/-- An operation survives a pass exactly when its attempt fails with the
pre-bump `retryCount` still below `maxRetries`; the survivor is the bumped
operation. -/
theorem mem_passStoreSpec {remote : GatewayCall → Bool} {q : List OfflineOperation}
    {o' : OfflineOperation} (h : o' ∈ passStoreSpec remote q) :
    ∃ op ∈ q, opFails remote op = true ∧ op.retryCount < op.maxRetries ∧ o' = bumpOp op := by
  obtain ⟨op, hop, hs⟩ := List.mem_filterMap.mp h
  unfold opSurvives at hs
  by_cases hf : opFails remote op = true
  · rw [if_pos hf] at hs
    by_cases hm : op.maxRetries ≤ op.retryCount
    · rw [if_pos hm] at hs; cases hs
    · rw [if_neg hm] at hs
      injection hs with h'
      exact ⟨op, hop, hf, by omega, h'.symm⟩
  · rw [if_neg hf] at hs; cases hs

theorem slack_le_slackBound {q : List OfflineOperation} : ∀ op ∈ q, slack op ≤ slackBound q := by
  induction q with
  | nil => intro op h; cases h
  | cons x xs ih =>
      intro op h
      rcases List.mem_cons.mp h with h | h
      · subst h; exact le_max_left _ _
      · exact le_trans (ih op h) (le_max_right _ _)

theorem passStoreSpec_slack_le {remote : GatewayCall → Bool} {q : List OfflineOperation}
    {n : Nat} (h : ∀ op ∈ q, slack op ≤ n) :
    ∀ o' ∈ passStoreSpec remote q, slack o' ≤ n - 1 := by
  intro o' ho'
  obtain ⟨op, hop, _, hlt, rfl⟩ := mem_passStoreSpec ho'
  have := h op hop
  simp only [slack, bumpOp] at *
  omega

theorem passStoreSpec_nil_of_slack_le_one {remote : GatewayCall → Bool}
    {q : List OfflineOperation} (h : ∀ op ∈ q, slack op ≤ 1) :
    passStoreSpec remote q = [] := by
  rw [List.eq_nil_iff_forall_not_mem]
  intro o' ho'
  obtain ⟨op, hop, _, hlt, rfl⟩ := mem_passStoreSpec ho'
  have := h op hop
  simp only [slack] at this
  omega

theorem passStoreSpec_ids_sublist (remote : GatewayCall → Bool)
    (q : List OfflineOperation) :
    ((passStoreSpec remote q).map (fun o => o.id)).Sublist (q.map (fun o => o.id)) := by
  induction q with
  | nil => simp [passStoreSpec]
  | cons op rest ih =>
      rw [passStoreSpec, List.filterMap_cons]
      cases hs : opSurvives remote op with
      | none =>
          rw [List.map_cons]
          exact List.Sublist.cons _ (by simpa [passStoreSpec] using ih)
      | some o' =>
          have hido : o'.id = op.id := by
            unfold opSurvives at hs
            by_cases hf : opFails remote op = true
            · rw [if_pos hf] at hs
              by_cases hm : op.maxRetries ≤ op.retryCount
              · rw [if_pos hm] at hs; cases hs
              · rw [if_neg hm] at hs
                injection hs with h'
                rw [← h']
                rfl
            · rw [if_neg hf] at hs; cases hs
          rw [List.map_cons, List.map_cons, hido]
          exact List.Sublist.cons₂ _ (by simpa [passStoreSpec] using ih)

theorem passStoreSpec_nodup {remote : GatewayCall → Bool} {q : List OfflineOperation}
    (h : (q.map (fun o => o.id)).Nodup) :
    ((passStoreSpec remote q).map (fun o => o.id)).Nodup :=
  h.sublist (passStoreSpec_ids_sublist remote q)

theorem syncTicks_nodup {online : Nat → Bool} {remote : Nat → GatewayCall → Bool}
    {q0 : List OfflineOperation} (h : (q0.map (fun o => o.id)).Nodup) :
    ∀ t, ((syncTicks online remote q0 t).map (fun o => o.id)).Nodup := by
  intro t
  induction t with
  | zero => exact h
  | succ t ih =>
      rw [syncTicks]
      by_cases ho : online t
      · rw [if_pos ho, congrArg PassState.store (syncPendingOperationsPass_spec (remote t) _ ih)]
        exact passStoreSpec_nodup ih
      · rw [if_neg ho]
        exact ih

theorem syncTicks_slack_le {online : Nat → Bool} {remote : Nat → GatewayCall → Bool}
    {q0 : List OfflineOperation} {n : Nat} (hnd : (q0.map (fun o => o.id)).Nodup)
    (h : ∀ op ∈ q0, slack op ≤ n) :
    ∀ t, ∀ op ∈ syncTicks online remote q0 t, slack op ≤ n := by
  intro t
  induction t with
  | zero => exact h
  | succ t ih =>
      rw [syncTicks]
      by_cases ho : online t
      · rw [if_pos ho, congrArg PassState.store
          (syncPendingOperationsPass_spec (remote t) _ (syncTicks_nodup hnd t))]
        intro op hop
        have := passStoreSpec_slack_le ih op hop
        omega
      · rw [if_neg ho]
        exact ih

theorem syncTicks_empty_succ {online : Nat → Bool} {remote : Nat → GatewayCall → Bool}
    {q0 : List OfflineOperation} {t : Nat} (h : syncTicks online remote q0 t = []) :
    syncTicks online remote q0 (t + 1) = [] := by
  rw [syncTicks, h]
  by_cases ho : online t
  · rw [if_pos ho]; rfl
  · rw [if_neg ho]

theorem syncTicks_countdown {online : Nat → Bool} {remote : Nat → GatewayCall → Bool}
    {q0 : List OfflineOperation} (hnd : (q0.map (fun o => o.id)).Nodup) :
    ∀ (m t : Nat), (∀ u, t ≤ u → online u = true) →
      (∀ op ∈ syncTicks online remote q0 t, slack op ≤ m) →
      syncTicks online remote q0 (t + m + 1) = [] := by
  intro m
  induction m with
  | zero =>
      intro t hon hsl
      rw [syncTicks, if_pos (hon t le_rfl), congrArg PassState.store
        (syncPendingOperationsPass_spec (remote t) _ (syncTicks_nodup hnd t))]
      exact passStoreSpec_nil_of_slack_le_one (fun op h => le_trans (hsl op h) (by omega))
  | succ m ih =>
      intro t hon hsl
      have h1 : syncTicks online remote q0 (t + 1) =
          passStoreSpec (remote t) (syncTicks online remote q0 t) := by
        rw [syncTicks, if_pos (hon t le_rfl), congrArg PassState.store
          (syncPendingOperationsPass_spec (remote t) _ (syncTicks_nodup hnd t))]
      have hsl' : ∀ op ∈ syncTicks online remote q0 (t + 1), slack op ≤ m := by
        rw [h1]
        intro op hop
        have := passStoreSpec_slack_le hsl op hop
        omega
      have h2 := ih (t + 1) (fun u hu => hon u (by omega)) hsl'
      rw [show t + (m + 1) + 1 = t + 1 + m + 1 from by omega]
      exact h2

theorem failing_pass_keep {remote : GatewayCall → Bool} {op : OfflineOperation} {c : GatewayCall}
    (hex : executeOperation op = Except.ok c) (hr : remote c = false)
    {k : Nat} (hk : k < op.maxRetries) :
    syncPendingOperationsPass remote [{ op with retryCount := k }] =
      { store := [{ op with retryCount := k + 1 }]
        errors := []
        calls := [c] } := by
  rw [syncPendingOperationsPass_spec remote _ (by simp)]
  have hex' : executeOperation { op with retryCount := k } = Except.ok c := hex
  simp only [passStoreSpec, passErrorsSpec, passCallsSpec, List.filterMap_cons,
    List.filterMap_nil, List.filter_cons, List.filter_nil, List.map_nil,
    opSurvives, opFails, hex', hr, Except.toOption, Bool.not_false]
  rw [if_pos trivial, if_neg (Nat.not_le.mpr hk)]
  simp [bumpOp, Nat.not_le.mpr hk]

theorem failing_pass_drop {remote : GatewayCall → Bool} {op : OfflineOperation} {c : GatewayCall}
    (hex : executeOperation op = Except.ok c) (hr : remote c = false)
    {k : Nat} (hk : op.maxRetries ≤ k) :
    syncPendingOperationsPass remote [{ op with retryCount := k }] =
      { store := []
        errors := [dropMessage op]
        calls := [c] } := by
  rw [syncPendingOperationsPass_spec remote _ (by simp)]
  have hex' : executeOperation { op with retryCount := k } = Except.ok c := hex
  simp only [passStoreSpec, passErrorsSpec, passCallsSpec, List.filterMap_cons,
    List.filterMap_nil, List.filter_cons, List.filter_nil, List.map_nil,
    opSurvives, opFails, hex', hr, Except.toOption, Bool.not_false]
  rw [if_pos trivial, if_pos hk]
  simp [dropMessage, hk]

theorem failing_runPasses {remote : GatewayCall → Bool} {op : OfflineOperation}
    {c : GatewayCall} (hex : executeOperation op = Except.ok c) (hr : remote c = false)
    (h0 : op.retryCount = 0) :
    ∀ k, k ≤ op.maxRetries → runPasses remote k [op] = [{ op with retryCount := k }] := by
  intro k
  induction k with
  | zero =>
      intro _
      have h : { op with retryCount := 0 } = op := by
        cases op
        simp_all
      rw [runPasses, h]
  | succ k ih =>
      intro hk
      rw [runPasses, ih (by omega), failing_pass_keep hex hr (by omega)]

/-- C2 (amended): an operation whose remote call fails on every attempt is
attempted once per drain pass; because the drop check compares the snapshot's
pre-bump `retryCount` with `maxRetries`, it survives passes `1..maxRetries`
(ending pass `k` with stored `retryCount = k`) and is removed only in pass
`maxRetries + 1`, for a total of `maxRetries + 1` failed gateway attempts;
exactly one `syncErrors` entry is produced, by the dropping pass. -/
theorem c2_retry_cap_amended {remote : GatewayCall → Bool} {op : OfflineOperation}
    {c : GatewayCall} (hex : executeOperation op = Except.ok c) (hr : remote c = false)
    (h0 : op.retryCount = 0) :
    (∀ k, k ≤ op.maxRetries → runPasses remote k [op] = [{ op with retryCount := k }]) ∧
    (∀ k, k ≤ op.maxRetries →
      (syncPendingOperationsPass remote (runPasses remote k [op])).calls = [c]) ∧
    runPasses remote (op.maxRetries + 1) [op] = [] ∧
    (∀ k, k < op.maxRetries →
      (syncPendingOperationsPass remote (runPasses remote k [op])).errors = []) ∧
    (syncPendingOperationsPass remote (runPasses remote op.maxRetries [op])).errors =
      [dropMessage op] := by
  refine ⟨failing_runPasses hex hr h0, ?_, ?_, ?_, ?_⟩
  · intro k hk
    rw [failing_runPasses hex hr h0 k hk]
    rcases Nat.lt_or_ge k op.maxRetries with h | h
    · rw [failing_pass_keep hex hr h]
    · have hke : k = op.maxRetries := by omega
      subst hke
      rw [failing_pass_drop hex hr le_rfl]
  · rw [runPasses, failing_runPasses hex hr h0 op.maxRetries le_rfl,
      failing_pass_drop hex hr le_rfl]
  · intro k hk
    rw [failing_runPasses hex hr h0 k (by omega), failing_pass_keep hex hr hk]
  · rw [failing_runPasses hex hr h0 op.maxRetries le_rfl, failing_pass_drop hex hr le_rfl]

/-- C2 counterexample: with `maxRetries = 3` and an always-failing remote,
after three full drain passes the operation is still pending (with stored
`retryCount = 3`) and no `syncErrors` entry has been produced — the claim
says it is dropped, with its error entry, as soon as the post-bump
`retryCount` reaches `maxRetries`, i.e. by the end of the third pass.  The
drop actually happens in the fourth pass. -/
theorem c2_pre_bump_check_counterexample :
    runPasses alwaysFail 3 [c2op] = [{ c2op with retryCount := 3 }] ∧
    runPasses alwaysFail 3 [c2op] ≠ [] ∧
    (syncPendingOperationsPass alwaysFail (runPasses alwaysFail 2 [c2op])).errors = [] ∧
    runPasses alwaysFail 4 [c2op] = [] ∧
    (syncPendingOperationsPass alwaysFail (runPasses alwaysFail 3 [c2op])).errors =
      ["Operation expenses_1000_a1b2c3d4e failed after 3 retries"] := by
  refine ⟨by decide, by decide, by decide, by decide, by decide⟩

/-- C2 witness: the amended theorem applied to the concrete operation
`c2op` and the always-failing remote. -/
theorem c2_retry_cap_amended_witness :
    runPasses alwaysFail (c2op.maxRetries + 1) [c2op] = [] :=
  (@c2_retry_cap_amended alwaysFail c2op
    (GatewayCall.pushData "expenses" (OpData.expense { id := "e1" }))
    rfl rfl rfl).2.2.1

theorem keyLtList_irrefl : ∀ (a : List Char), keyLtList a a = false := by
  intro a
  induction a with
  | nil => rfl
  | cons x xs ih => simp [keyLtList, ih]

theorem keyLtList_asymm : ∀ {a b : List Char}, keyLtList a b = true → keyLtList b a = false := by
  intro a
  induction a with
  | nil =>
      intro b h
      cases b with
      | nil => simp [keyLtList] at h
      | cons y ys => rfl
  | cons x xs ih =>
      intro b h
      cases b with
      | nil => simp [keyLtList] at h
      | cons y ys =>
          simp only [keyLtList] at h ⊢
          by_cases hxy : x.toNat < y.toNat
          · rw [if_neg (show ¬ y.toNat < x.toNat by omega), if_pos hxy]
          · rw [if_neg hxy] at h
            by_cases hyx : y.toNat < x.toNat
            · rw [if_pos hyx] at h
              cases h
            · rw [if_neg hyx] at h
              rw [if_neg hyx, if_neg hxy]
              exact ih h

theorem keyLt_asymm {a b : String} (h : keyLt a b = true) : keyLt b a = false :=
  keyLtList_asymm h

theorem keyLt_ne {a b : String} (h : keyLt a b = true) : a ≠ b := by
  intro heq
  subst heq
  rw [keyLt, keyLtList_irrefl] at h
  cases h

theorem insertByKey_append {op : OfflineOperation} :
    ∀ {st : List OfflineOperation}, (∀ o ∈ st, keyLt o.id op.id = true) →
      insertByKey op st = st ++ [op] := by
  intro st
  induction st with
  | nil => intro _; rfl
  | cons x xs ih =>
      intro h
      rw [insertByKey, if_neg (by simp [keyLt_asymm (h x (List.mem_cons_self _ _))]),
        ih (fun o ho => h o (List.mem_cons_of_mem _ ho))]
      rfl

theorem enqueueAll_ordered :
    ∀ (reqs : List QueuedRequest) (st : List OfflineOperation),
      (reqs.map QueuedRequest.genId).Pairwise (fun a b => keyLt a b = true) →
      (∀ o ∈ st, ∀ r ∈ reqs, keyLt o.id r.genId = true) →
      enqueueAll reqs st = st ++ reqs.map QueuedRequest.toOp := by
  intro reqs
  induction reqs with
  | nil => intro st _ _; simp [enqueueAll]
  | cons r rest ih =>
      intro st hp hst
      rw [List.map_cons, List.pairwise_cons] at hp
      have h1 : addPendingOperation r.opType r.collection r.data r.now r.rand st =
          st ++ [r.toOp] := by
        show insertByKey r.toOp st = st ++ [r.toOp]
        exact insertByKey_append (fun o ho => hst o ho r (List.mem_cons_self _ _))
      have h2 : enqueueAll rest (st ++ [r.toOp]) =
          (st ++ [r.toOp]) ++ rest.map QueuedRequest.toOp := by
        apply ih _ hp.2
        intro o ho r' hr'
        rcases List.mem_append.mp ho with ho | ho
        · exact hst o ho r' (List.mem_cons_of_mem _ hr')
        · have heq : o = r.toOp := by simpa using ho
          subst heq
          exact hp.1 _ (List.mem_map_of_mem _ hr')
      calc enqueueAll (r :: rest) st
          = enqueueAll rest (addPendingOperation r.opType r.collection r.data r.now r.rand st) := rfl
        _ = enqueueAll rest (st ++ [r.toOp]) := by rw [h1]
        _ = (st ++ [r.toOp]) ++ rest.map QueuedRequest.toOp := h2
        _ = st ++ (r :: rest).map QueuedRequest.toOp := by simp

/-- C3 (amended): one drain pass dispatches the pending operations in
ascending operation-id order (`collection`, then timestamp, then random
suffix), because IndexedDB `getAll` returns records in key order.  Enqueue
order is therefore preserved exactly when the generated ids ascend in the
enqueue order — e.g. operations of one collection with increasing
equal-length timestamps — and is not preserved across distinct collections. -/
theorem c3_fifo_within_ascending_ids (reqs : List QueuedRequest)
    (h : (reqs.map QueuedRequest.genId).Pairwise (fun a b => keyLt a b = true)) :
    getPendingOperations (enqueueAll reqs []) = reqs.map QueuedRequest.toOp ∧
    ∀ remote, (syncPendingOperationsPass remote (enqueueAll reqs [])).calls =
      (reqs.map QueuedRequest.toOp).filterMap (fun op => (executeOperation op).toOption) := by
  have hq : enqueueAll reqs [] = reqs.map QueuedRequest.toOp := by
    simpa using enqueueAll_ordered reqs [] h (by intro o ho; cases ho)
  have hids : (reqs.map QueuedRequest.toOp).map (fun o => o.id) =
      reqs.map QueuedRequest.genId := by
    rw [List.map_map]
    rfl
  have hnd : ((reqs.map QueuedRequest.toOp).map (fun o => o.id)).Nodup := by
    rw [hids]
    exact h.imp keyLt_ne
  refine ⟨by rw [getPendingOperations, hq], ?_⟩
  intro remote
  rw [hq, congrArg PassState.calls (syncPendingOperationsPass_spec remote _ hnd)]
  rfl

/-- C3 counterexample: a meal operation enqueued first and an expense
operation enqueued second are stored — and drained — in the opposite order,
because `"expenses_1001_r2" < "meals_1000_r1"` in IndexedDB key order: the
gateway receives B's call before A's, refuting FIFO drain across distinct
collections. -/
theorem c3_cross_collection_reorder :
    getPendingOperations (enqueueAll [c3reqA, c3reqB] []) =
      [c3reqB.toOp, c3reqA.toOp] ∧
    (syncPendingOperationsPass (fun _ => true) (enqueueAll [c3reqA, c3reqB] [])).calls =
      [GatewayCall.pushData "expenses" c3reqB.data,
       GatewayCall.setData "meals/m1-2025-01-15-breakfast" c3reqA.data] ∧
    (syncPendingOperationsPass (fun _ => true) (enqueueAll [c3reqA, c3reqB] [])).calls ≠
      [GatewayCall.setData "meals/m1-2025-01-15-breakfast" c3reqA.data,
       GatewayCall.pushData "expenses" c3reqB.data] := by
  refine ⟨by decide, by decide, by decide⟩

/-- C3 witness: three same-collection operations with ascending ids are
drained in exactly their enqueue order. -/
theorem c3_fifo_witness :
    (syncPendingOperationsPass (fun _ => true) (enqueueAll c3reqs [])).calls =
      (c3reqs.map QueuedRequest.toOp).filterMap (fun op => (executeOperation op).toOption) :=
  (c3_fifo_within_ascending_ids c3reqs (by decide)).2 (fun _ => true)

/-! ### C7: drain mutual exclusion -/

theorem mxStep_inv {s : MxState} (h : s.inFlight = if s.isSyncing then 1 else 0)
    (a : MxAction) :
    (mxStep s a).inFlight = if (mxStep s a).isSyncing then 1 else 0 := by
  cases a with
  | request =>
      simp only [mxStep]
      by_cases hc : (s.isOnline && !s.isSyncing) = true
      · have hs : s.isSyncing = false := by
          cases hsy : s.isSyncing
          · rfl
          · rw [hsy] at hc
            simp at hc
        rw [hs] at h
        simp at h
        simp [hc, h]
      · simp only [Bool.not_eq_true] at hc
        simp [hc]
        exact h
  | finish remote =>
      simp only [mxStep]
      by_cases hc : s.isSyncing = true
      · rw [hc] at h
        simp at h
        simp [hc, h]
      · simp only [Bool.not_eq_true] at hc
        rw [hc] at h
        simp at h
        simp [hc, h]
  | goOnline => simpa [mxStep] using h
  | goOffline => simpa [mxStep] using h

theorem mxRun_inv (acts : List MxAction) :
    ∀ (s : MxState), s.inFlight = (if s.isSyncing then 1 else 0) →
      (mxRun s acts).inFlight = if (mxRun s acts).isSyncing then 1 else 0 := by
  induction acts with
  | nil => intro s h; exact h
  | cons a rest ih =>
      intro s h
      exact ih _ (mxStep_inv h a)

/-- C7: at most one drain pass is ever in flight (along every scheduler
trace from a fresh coordinator the in-flight count stays ≤ 1, because the
`isSyncing` guard admits a new pass only when none is running), and a drain
request arriving while offline or while a pass is in flight is a no-op that
returns the state — queue and status — unchanged. -/
theorem c7_drain_mutual_exclusion (online : Bool) (q : List OfflineOperation)
    (acts : List MxAction) :
    (mxRun (mxInit online q) acts).inFlight ≤ 1 ∧
    (∀ s : MxState, s.isOnline = false ∨ s.isSyncing = true →
      mxStep s MxAction.request = s) := by
  constructor
  · have h := mxRun_inv acts (mxInit online q) rfl
    rw [h]
    split
    · exact le_rfl
    · exact Nat.zero_le 1
  · intro s hs
    have hc : (s.isOnline && !s.isSyncing) = false := by
      rcases hs with hs | hs
      · simp [hs]
      · simp [hs]
    simp [mxStep, hc]

/-- C7 witness: two back-to-back requests keep the in-flight count at one,
and a request while offline with a nonempty queue is an exact no-op. -/
theorem c7_drain_mutual_exclusion_witness :
    (mxRun (mxInit true []) [MxAction.request, MxAction.request]).inFlight ≤ 1 ∧
    mxStep (mxInit false [c2op]) MxAction.request = mxInit false [c2op] :=
  ⟨(c7_drain_mutual_exclusion true [] [MxAction.request, MxAction.request]).1,
   (c7_drain_mutual_exclusion false [c2op] []).2 (mxInit false [c2op]) (Or.inl rfl)⟩

/-! ### C8: day-transition delivery order -/

/-- C8: on a monitoring tick whose freshly computed date differs from the
recorded one, `checkForDayTransition` updates the recorded current date
first and only then delivers the `DayTransition` event — carrying
`previousDate` (the old recorded date), `currentDate` (the new date), the
timestamp and time zone — synchronously to every subscriber before the tick
returns, so every callback observes the already-updated current date. -/
theorem c8_day_transition_order {β : Type} (newDate : String) (nowTs : Nat)
    (tz : String) (s : TimeState β) (h : newDate ≠ s.currentDate) :
    (checkForDayTransition newDate nowTs tz s).1.currentDate = newDate ∧
    (checkForDayTransition newDate nowTs tz s).2 =
      s.dayTransitionCallbacks.map (fun cb =>
        cb { previousDate := s.currentDate, currentDate := newDate,
             timestamp := nowTs, timeZone := tz } newDate) ∧
    (checkForDayTransition newDate nowTs tz s).2.length =
      s.dayTransitionCallbacks.length := by
  rw [checkForDayTransition, if_neg h]
  refine ⟨rfl, rfl, ?_⟩
  simp

/-- C8 witness: a subscriber that returns the current date it observes sees
the already-updated date. -/
theorem c8_day_transition_order_witness :
    (checkForDayTransition "2025-01-16" 1700 "Asia/Dhaka"
      ({ currentDate := "2025-01-15",
         dayTransitionCallbacks := [fun _ cur => cur] } : TimeState String)).2 =
      ["2025-01-16"] := by
  rw [(c8_day_transition_order "2025-01-16" 1700 "Asia/Dhaka"
    { currentDate := "2025-01-15", dayTransitionCallbacks := [fun _ cur => cur] }
    (by decide)).2.1]
  rfl

/-! ### C9: per-subscriber error isolation -/

theorem notifyEach_all {ε : Type} (ls : List (ε → Except String Unit)) (ev : ε) :
    (notifyEach ls ev).length = ls.length ∧ ∀ r ∈ notifyEach ls ev, r.1 = true := by
  constructor
  · simp [notifyEach]
  · intro r hr
    rcases List.mem_map.mp hr with ⟨l, _, rfl⟩
    cases hle : l ev with
    | ok u => simp [hle]
    | error e => simp [hle]

/-- C9: in each of the three delivery loops (sync events, finalization
events, day-transition events), if some subscribed callback throws, every
callback is still invoked exactly once with the event and the emitting loop
completes normally (one result per listener, each marked invoked). -/
theorem c9_subscriber_isolation :
    (∀ (ls : List (SyncEvent → Except String Unit)) (ev : SyncEvent),
      (∃ l ∈ ls, ∃ e, l ev = Except.error e) →
      (notifyListeners ls ev).length = ls.length ∧
        ∀ r ∈ notifyListeners ls ev, r.1 = true) ∧
    (∀ (cbs : List (FinalizationEvent → Except String Unit)) (ev : FinalizationEvent),
      (∃ l ∈ cbs, ∃ e, l ev = Except.error e) →
      (notifyFinalizationCallbacks cbs ev).length = cbs.length ∧
        ∀ r ∈ notifyFinalizationCallbacks cbs ev, r.1 = true) ∧
    (∀ (cbs : List (DayTransitionEvent → Except String Unit)) (ev : DayTransitionEvent),
      (∃ l ∈ cbs, ∃ e, l ev = Except.error e) →
      (notifyDayTransitionCallbacks cbs ev).length = cbs.length ∧
        ∀ r ∈ notifyDayTransitionCallbacks cbs ev, r.1 = true) :=
  ⟨fun ls ev _ => notifyEach_all ls ev,
   fun cbs ev _ => notifyEach_all cbs ev,
   fun cbs ev _ => notifyEach_all cbs ev⟩

/-- C9 witness: with a throwing first listener, both listeners are still
delivered to (two results, i.e. the loop completed). -/
theorem c9_subscriber_isolation_witness :
    (notifyListeners [fun _ => Except.error "boom", fun _ => Except.ok ()]
        { eventType := "sync_complete", errors := [] }).length = 2 :=
  (c9_subscriber_isolation.1
    [fun _ => Except.error "boom", fun _ => Except.ok ()]
    { eventType := "sync_complete", errors := [] }
    ⟨fun _ => Except.error "boom", List.mem_cons_self _ _, "boom", rfl⟩).1

/-! ### C1: offline finalization records never reach the remote store -/

/-- C1 (code bug): an offline finalization does write the sealed record to
the local cache marked dirty and does enqueue a CREATE pending operation for
the `day_finalizations` collection — but `executeOperation`'s collection
switch has no `day_finalizations` case, so every drain attempt throws
`Unknown collection: day_finalizations` before any gateway call: the
operation is never dispatched (no matter the remote behavior), its retry
count is exhausted, and it is dropped with a sync error after the fourth
pass, so the sealed record never reaches the remote store. -/
theorem c1_day_finalization_op_never_dispatched :
    (finalizeDayMeals emptyAppState "2025-01-14").pending.length = 1 ∧
    (((finalizeDayMeals emptyAppState "2025-01-14").localFins "2025-01-14").map
      (fun w => (w.isOffline, w.data.isFinalized))) = some (true, true) ∧
    (finalizeDayMeals emptyAppState "2025-01-14").pending =
      [toPendingOperation OpType.CREATE "day_finalizations"
        (OpData.finRecord (buildFinalizationRecord emptyAppState "2025-01-14" []))
        5000 "r0"] ∧
    executeOperation (toPendingOperation OpType.CREATE "day_finalizations"
        (OpData.finRecord (buildFinalizationRecord emptyAppState "2025-01-14" []))
        5000 "r0") =
      Except.error (ExecError.unknownCollection "day_finalizations") ∧
    (∀ remote : GatewayCall → Bool,
      (syncPendingOperationsPass remote
        (finalizeDayMeals emptyAppState "2025-01-14").pending).calls = []) ∧
    runPasses (fun _ => true) 4 (finalizeDayMeals emptyAppState "2025-01-14").pending = [] ∧
    (syncPendingOperationsPass (fun _ => true)
        (runPasses (fun _ => true) 3 (finalizeDayMeals emptyAppState "2025-01-14").pending)).errors =
      ["Operation day_finalizations_5000_r0 failed after 3 retries"] := by
  refine ⟨by decide, by decide, by decide, rfl, ?_, by decide, by decide⟩
  intro remote
  rfl

/-! ### C4: idempotence of finalize -/

/-- C4 (code bug): while offline, `getFinalizationRecord` returns the
IndexedDB wrapper object, whose `isFinalized` property is `undefined`, so
the already-sealed check never fires: after a first offline
`finalizeDayMeals("2025-01-15")` leaves a sealed record in the local cache,
a second call does not return as a no-op — it re-finalizes, enqueuing a
second CREATE pending operation and emitting a second finalization event. -/
theorem c4_offline_refinalize_eval :
    (finalizeDayMeals emptyAppState "2025-01-15").pending.length = 1 ∧
    (finalizeDayMeals emptyAppState "2025-01-15").finEvents.length = 1 ∧
    (((finalizeDayMeals emptyAppState "2025-01-15").localFins "2025-01-15").map
      (fun w => w.data.isFinalized)) = some true ∧
    (finalizeDayMeals (finalizeDayMeals emptyAppState "2025-01-15")
        "2025-01-15").pending.length = 2 ∧
    (finalizeDayMeals (finalizeDayMeals emptyAppState "2025-01-15")
        "2025-01-15").finEvents.length = 2 := by
  refine ⟨by decide, by decide, by decide, by decide, by decide⟩

/-! ### C10: manual finalization with force -/

/-- C10 counterexample: with a sealed record present in the local cache
while offline, `manuallyFinalizeDayMeals(date, force := true)` is not a
no-op: the inner sealed check reads the storage wrapper (whose
`isFinalized` is `undefined`), so the day is re-finalized — a second CREATE
operation is enqueued and a second finalization event emitted. -/
theorem c10_offline_force_not_noop :
    (finalizeDayMeals emptyAppState "2025-02-01").pending.length = 1 ∧
    ((manuallyFinalizeDayMeals (finalizeDayMeals emptyAppState "2025-02-01")
        "2025-02-01" true).toOption.map
      (fun s' => (s'.pending.length, s'.finEvents.length))) = some (2, 2) := by
  refine ⟨by decide, by decide⟩

/-- C10 (amended): while online and with the Firebase read of the date's
record succeeding — so the sealed check reads the plain record back from the
remote store — manual finalization with `force := true` is a no-op: the
force flag only bypasses the pre-check, and the inner `finalizeDayMeals`
returns immediately on its own already-sealed check, so the state (hence
the queue, caches, and gateway log) is unchanged.  Offline, or when the
online read throws and the catch falls back to the storage wrapper, the
inner check misses and the sealed day is re-finalized (see the
counterexample and `c10_online_read_failure_eval`). -/
theorem c10_force_noop_online (s : AppState) (d : String) (r : DayFinalizationRecord)
    (hon : s.isOnline = true) (hrf : s.finReadFails d = false)
    (hr : s.remoteFins d = some r) (hf : r.isFinalized = true) :
    manuallyFinalizeDayMeals s d true = Except.ok s ∧ finalizeDayMeals s d = s := by
  have hseal : isDayFinalized s d = true := by
    simp [isDayFinalized, getFinalizationRecord, hon, hrf, hr, lookupIsFinalized, hf]
  have hfin : finalizeDayMeals s d = s := by
    rw [finalizeDayMeals,
      if_pos (show lookupIsFinalized (getFinalizationRecord s d) = true from hseal)]
  refine ⟨?_, hfin⟩
  rw [manuallyFinalizeDayMeals]
  simp [hfin]

/-- C10 witness: the amended theorem at a concrete online state with a
sealed remote record. -/
theorem c10_force_noop_online_witness :
    manuallyFinalizeDayMeals c10state "2025-01-10" true = Except.ok c10state :=
  (c10_force_noop_online c10state "2025-01-10" sealedRecord rfl rfl (by decide) rfl).1

/-! ### C6: queue liveness -/

/-- C6: for every initial queue (with distinct operation ids, as IndexedDB
keys are) and every connectivity trace that is online from tick `T` on,
every pending operation is eventually removed — each drain pass either
removes an operation (success, or retry exhaustion) or strictly decreases
its remaining retry budget — so the queue is empty at every tick from
`T + slackBound q0 + 1` on and stays empty. -/
theorem c6_queue_liveness (q0 : List OfflineOperation) (online : Nat → Bool)
    (remote : Nat → GatewayCall → Bool) (T : Nat)
    (hnd : (q0.map (fun o => o.id)).Nodup)
    (hon : ∀ t, T ≤ t → online t = true) :
    ∀ k, T + slackBound q0 + 1 ≤ k → syncTicks online remote q0 k = [] := by
  have hK : syncTicks online remote q0 (T + slackBound q0 + 1) = [] :=
    syncTicks_countdown hnd (slackBound q0) T (fun u hu => hon u hu)
      (syncTicks_slack_le hnd (fun o ho => slack_le_slackBound o ho) T)
  intro k hk
  exact Nat.le_induction hK (fun n _ ih => syncTicks_empty_succ ih) k hk

/-- C6 witness: a queue with one operation, offline for the first two ticks
and online afterwards, is empty by tick 7. -/
theorem c6_queue_liveness_witness :
    syncTicks (fun t => decide (2 ≤ t)) (fun _ _ => false) [c2op] 7 = [] :=
  c6_queue_liveness [c2op] (fun t => decide (2 ≤ t)) (fun _ _ => false) 2
    (by decide) (fun t ht => decide_eq_true ht) 7 (by decide)

/-! ### C5: catch-up completeness -/

/-- When the online Firebase read of a sealed day's record throws, the catch
in `getFinalizationRecord` falls back to the storage wrapper and the sealed
check misses: `force := true` finalization proceeds even though a sealed
record exists remotely, issuing a gateway write that overwrites it and
emitting a fresh event — this is why the online no-op theorem requires the
read to succeed. -/
theorem c10_online_read_failure_eval :
    ((manuallyFinalizeDayMeals c10failState "2025-01-10" true).toOption.map
      (fun s' => (s'.gatewayWrites.length, s'.finEvents.length))) = some (1, 1) := by
  decide
